import Mathlib

/-!
# AfriCourse AI: verification of the client-side logic

Shallow embedding of the AfriCourse AI web client (`src/App.tsx`,
`src/services/geminiService.ts`, `src/types.ts`, and the earlier revisions
kept under `src/unnamed/`).  Calls to the hosted generative-AI backend are
modelled by their results (the value the external service returns, or the
exception it throws, as an `Except`); everything the repository's own code
does with those results is translated directly from the source.
-/

namespace AfriCourse

/-- Per-lesson source link of `src/types.ts`: `{ title: string; url: string }`. -/
structure LessonSource where
  title : String
  url : String
  deriving DecidableEq, Repr

/-- Grounding source of `src/types.ts`: `{ title: string; uri: string }`. -/
structure GroundingSource where
  title : String
  uri : String
  deriving DecidableEq, Repr

/-- Interface `LessonPart` of `src/types.ts`.  The optional `expandedContent?`
field is an `Option`. -/
structure LessonPart where
  title : String
  content : String
  keyTakeaways : List String
  sources : List LessonSource
  expandedContent : Option String := none
  deriving DecidableEq, Repr

/-- Interface `CourseContent` of `src/types.ts`. -/
structure CourseContent where
  topic : String
  summary : String
  lessons : List LessonPart
  groundingSources : List GroundingSource
  deriving DecidableEq, Repr

/-- Type `LearningDepth = 'express' | 'standard' | 'deep' | 'certified'` of
`src/types.ts`. -/
inductive LearningDepth where
  | express
  | standard
  | deep
  | certified
  deriving DecidableEq, Repr

/-- The string value each `LearningDepth` literal has in the TypeScript source. -/
def LearningDepth.toString : LearningDepth → String
  | .express => "express"
  | .standard => "standard"
  | .deep => "deep"
  | .certified => "certified"

/-- Inverse of `LearningDepth.toString`: models membership of a raw string in
`['express', 'standard', 'deep', 'certified']` (used by the shared-link
startup effect of `src/App.tsx`) together with the cast to `LearningDepth`. -/
def LearningDepth.ofString : String → Option LearningDepth
  | "express" => some .express
  | "standard" => some .standard
  | "deep" => some .deep
  | "certified" => some .certified
  | _ => none

/-- Roadmap entry of interface `CertifiedPathway` of `src/types.ts`. -/
structure RoadmapYear where
  year : Int
  semesters : List String
  deriving DecidableEq, Repr

/-- Interface `CertifiedPathway` of `src/types.ts`. -/
structure CertifiedPathway where
  title : String
  duration : String
  roadmap : List RoadmapYear
  deriving DecidableEq, Repr

/-- Type `AppTheme` of `src/types.ts`. -/
inductive AppTheme where
  | blue
  | black
  | orange
  | green
  | red
  deriving DecidableEq, Repr

/-- Type `VideoOrientation = '16:9' | '9:16'` of `src/types.ts`. -/
inductive VideoOrientation where
  | landscape
  | portrait
  deriving DecidableEq, Repr

/-- Type `VideoResolution = '720p' | '1080p'` of `src/types.ts`. -/
inductive VideoResolution where
  | r720p
  | r1080p
  deriving DecidableEq, Repr

/-- Role tag `'user' | 'model'` of interface `ChatMessage` of `src/types.ts`. -/
inductive ChatRole where
  | user
  | model
  deriving DecidableEq, Repr

/-- Interface `ChatMessage` of `src/types.ts`. -/
structure ChatMessage where
  role : ChatRole
  text : String
  deriving DecidableEq, Repr

/-- Interface `SavedCourse` of `src/types.ts`.  The `savedAt` field (a
`Date.now()` millisecond timestamp) is a `Nat`. -/
structure SavedCourse where
  id : String
  content : CourseContent
  savedAt : Nat
  depth : LearningDepth
  deriving DecidableEq, Repr

/-- Interface `AppState` of `src/types.ts`.  Nullable fields are `Option`s;
the `isExpandingLesson: number | null` field is an `Option Nat`. -/
structure AppState where
  isGenerating : Bool
  course : Option CourseContent
  certifiedPathway : Option CertifiedPathway
  completedLessons : List Nat
  videoUrl : Option String
  isVideoGenerating : Bool
  isAudioGenerating : Bool
  isAnalyzingVideo : Bool
  videoAnalysis : Option String
  error : Option String
  theme : AppTheme
  isDarkMode : Bool
  chatMessages : List ChatMessage
  isChatLoading : Bool
  videoOrientation : VideoOrientation
  videoResolution : VideoResolution
  isExpandingLesson : Option Nat
  savedCourses : List SavedCourse
  deriving DecidableEq, Repr

/-- Initial `AppState` of `src/App.tsx` (the `useState` initialiser), with the
result of the dark-mode media query passed in. -/
def initialState (prefersDark : Bool) : AppState where
  isGenerating := false
  course := none
  certifiedPathway := none
  completedLessons := []
  videoUrl := none
  isVideoGenerating := false
  isAudioGenerating := false
  isAnalyzingVideo := false
  videoAnalysis := none
  error := none
  theme := .blue
  isDarkMode := prefersDark
  chatMessages := []
  isChatLoading := false
  videoOrientation := .landscape
  videoResolution := .r720p
  isExpandingLesson := none
  savedCourses := []

/-!
## Lesson-completion toggling

Function `toggleLessonCompletion` of `src/unnamed/part_002` (the same update
appears inline in the Mark Done button of `src/App.tsx`):

```ts
const isCompleted = prev.completedLessons.includes(idx);
if (isCompleted) {
  return { ...prev, completedLessons: prev.completedLessons.filter(i => i !== idx) };
} else {
  return { ...prev, completedLessons: [...prev.completedLessons, idx] };
}
```
-/

/-- The `completedLessons` update performed by `toggleLessonCompletion`. -/
def toggleLessonCompletion (completedLessons : List Nat) (idx : Nat) : List Nat :=
  if completedLessons.contains idx then
    completedLessons.filter (fun i => i ≠ idx)
  else
    completedLessons ++ [idx]

/-!
## Progress percentage

Memo `progressPercentage` of `src/App.tsx` lines 250-253:

```ts
if (!state.course || state.course.lessons.length === 0) return 0;
return Math.round((state.completedLessons.length / state.course.lessons.length) * 100);
```

Arithmetic is modelled over the rationals; the involved quotient and the
`Math.round` argument are small enough that the model is exact for the
operational range (the divisor is a lesson count).  `Math.round(x)` for
JavaScript numbers is round-half-up, i.e. `⌊x + 1/2⌋` for finite `x`.
-/

/-- JavaScript `Math.round` on an exact rational input: round half up. -/
def jsRound (q : ℚ) : Int := ⌊q + 1 / 2⌋

/-- The `progressPercentage` memo of `src/App.tsx`, as a function of the two
state fields it reads. -/
def progressPercentage (course : Option CourseContent) (completedLessons : List Nat) : Int :=
  match course with
  | none => 0
  | some c =>
      if c.lessons.length = 0 then 0
      else jsRound (((completedLessons.length : ℚ) / (c.lessons.length : ℚ)) * 100)

/-!
## Saving a course for offline use

Handler `handleSaveForOffline` of `src/App.tsx` lines 119-133.  The
`crypto.randomUUID()` value and the `Date.now()` timestamp are inputs of the
model; the `localStorage.setItem` write and the `alert` are external effects
outside the embedding.
-/

/-- Handler `handleSaveForOffline` of `src/App.tsx`.  The handler reads the
current `depth` component state, so `depth` is an input. -/
def handleSaveForOffline (prev : AppState) (newId : String) (now : Nat)
    (depth : LearningDepth) : AppState :=
  match prev.course with
  | none => prev
  | some course =>
      let newSaved : SavedCourse :=
        { id := newId, content := course, savedAt := now, depth := depth }
      { prev with savedCourses :=
          newSaved :: prev.savedCourses.filter (fun c => c.content.topic ≠ course.topic) }

/-- Number of entries of a saved-course list whose `content.topic` is `t`. -/
def topicCount (l : List SavedCourse) (t : String) : Nat :=
  (l.filter (fun c => c.content.topic = t)).length

/-!
## Expanding a lesson

Handler `handleExpandLesson` of `src/App.tsx` lines 169-183.  The handler
first sets `isExpandingLesson: idx`, awaits `expandLessonContent`, and on
success rebuilds the lesson list with `newLessons[idx] = { ...newLessons[idx],
expandedContent: expanded }`; on failure it records an error.  The outcome of
the awaited service call is the `result` input.
-/

/-- In-bounds part of the JavaScript assignment `newLessons[idx] =
{ ...newLessons[idx], expandedContent: expanded }`: replace the element at
`idx`, keeping its other fields.  (For the handler `idx` indexes an existing
lesson of the rendered course, so the in-bounds case is the one exercised.) -/
def setExpandedAt : List LessonPart → Nat → String → List LessonPart
  | [], _, _ => []
  | l :: ls, 0, e => { l with expandedContent := some e } :: ls
  | l :: ls, n + 1, e => l :: setExpandedAt ls n e

/-- Handler `handleExpandLesson` of `src/App.tsx`: the guard, the
`isExpandingLesson` mark, and the success/failure state update. -/
def handleExpandLesson (prev : AppState) (idx : Nat)
    (result : Except String String) : AppState :=
  match prev.course with
  | none => prev
  | some _ =>
      let mid := { prev with isExpandingLesson := some idx }
      match result with
      | .ok expanded =>
          { mid with
            course := mid.course.map
              (fun c => { c with lessons := setExpandedAt c.lessons idx expanded }),
            isExpandingLesson := none }
      | .error _ =>
          { mid with isExpandingLesson := none, error := some "Failed to expand content." }

/-!
## Share links

Handler `handleShare` of `src/App.tsx` lines 109-117 sets the query
parameters `topic` and `depth` of a share URL; the startup effect of lines
67-83 reads them back:

```ts
const sharedTopic = params.get('topic');
const sharedDepth = params.get('depth');
if (sharedTopic) {
  setTopic(sharedTopic);
  if (sharedDepth && ['express', 'standard', 'deep', 'certified'].includes(sharedDepth)) {
    setDepth(sharedDepth as LearningDepth);
  }
  ...
}
```

`URLSearchParams` serialisation/parsing is the browser's and round-trips each
set key/value pair, so the query string is modelled as the key/value list it
carries.
-/

/-- The query parameters written by `handleShare` of `src/App.tsx`. -/
def handleShareParams (topic : String) (depth : LearningDepth) : List (String × String) :=
  [("topic", topic), ("depth", depth.toString)]

/-- Model of `URLSearchParams.get`: the value of the first pair with the given
key, or `none` when the key is absent. -/
def lookupParam (params : List (String × String)) (k : String) : Option String :=
  (params.find? (fun p => p.1 == k)).map (fun p => p.2)

/-- The shared-link startup effect of `src/App.tsx` lines 67-83: the `topic`
and `depth` component states after the effect runs, given their initial
values (`useState` gives `topic0 = ""` and `depth0 = express`).  A JavaScript
truthiness test guards the whole block, so an empty `topic` parameter leaves
both states untouched. -/
def sharedStartup (params : List (String × String)) (topic0 : String)
    (depth0 : LearningDepth) : String × LearningDepth :=
  match lookupParam params "topic" with
  | none => (topic0, depth0)
  | some t =>
      if t = "" then (topic0, depth0)
      else
        let d := match lookupParam params "depth" with
          | none => depth0
          | some ds =>
              match LearningDepth.ofString ds with
              | some d => d
              | none => depth0
        (t, d)

/-!
## Video generation long poll

Function `generateCourseVideo` of `src/services/geminiService.ts` lines
136-156:

```ts
let operation = await ai.models.generateVideos({ ... });
while (!operation.done) {
  await new Promise(resolve => setTimeout(resolve, 10000));
  operation = await ai.operations.getVideosOperation({ operation: operation });
}
const downloadLink = operation.response?.generatedVideos?.[0]?.video?.uri;
```

The backend is modelled by the stream of operations it reports: `getOp 0` is
the result of `generateVideos`, and `getOp (k+1)` the result of the `k`-th
`getVideosOperation` re-fetch, each preceded by a 10-second `setTimeout`
sleep (real time is outside the embedding; the loop structure is what is
verified).  The loop is given as fuel an upper bound on iterations; with
fuel exhausted it answers `none`.
-/

/-- One entry of the `generatedVideos` array: `video?.uri`. -/
structure GeneratedVideo where
  uri : Option String
  deriving DecidableEq, Repr

/-- A video-generation operation as the code reads it: the `done` flag and the
optional `response?.generatedVideos` array. -/
structure VideoOp where
  done : Bool
  generatedVideos : Option (List GeneratedVideo)
  deriving DecidableEq, Repr

/-- The optional chain `operation.response?.generatedVideos?.[0]?.video?.uri`. -/
def downloadLink (op : VideoOp) : Option String :=
  ((op.generatedVideos.getD []).head?).bind (fun v => v.uri)

/-- The `while (!operation.done)` long-poll loop: starting from the
operation at index `i`, keep re-fetching until `done` or fuel runs out. -/
def pollLoop (getOp : Nat → VideoOp) : Nat → Nat → Option VideoOp
  | 0, _ => none
  | fuel + 1, i =>
      if (getOp i).done then some (getOp i) else pollLoop getOp fuel (i + 1)

/-- Function `generateCourseVideo` of `src/services/geminiService.ts` after
the poll stream is fixed: the download link of the operation the loop exits
with (the subsequent `fetch`/`createObjectURL` are external effects on it). -/
def generateCourseVideo (getOp : Nat → VideoOp) (fuel : Nat) : Option (Option String) :=
  (pollLoop getOp fuel 0).map downloadLink

/-!
## Narration generation and base64 decoding

Function `generateNarration` of `src/services/geminiService.ts` lines
158-174:

```ts
const base64Audio = response.candidates?.[0]?.content?.parts?.[0]?.inlineData?.data;
if (!base64Audio) throw new Error("No audio generated");
const binaryString = atob(base64Audio);
const bytes = new Uint8Array(binaryString.length);
for (let i = 0; i < binaryString.length; i++) bytes[i] = binaryString.charCodeAt(i);
return bytes.buffer;
```

The platform builtin `atob` is modelled as a base64 decoder returning the
decoded binary string as its list of UTF-16 code units (each below 256), or
`none` on invalid input, in which case the real `atob` throws
`InvalidCharacterError`.  The `Uint8Array` element assignment truncates
modulo 256.
-/

/-- Value of one character of the standard base64 alphabet. -/
def b64Val (c : Char) : Option Nat :=
  if 65 ≤ c.toNat ∧ c.toNat ≤ 90 then some (c.toNat - 65)
  else if 97 ≤ c.toNat ∧ c.toNat ≤ 122 then some (c.toNat - 71)
  else if 48 ≤ c.toNat ∧ c.toNat ≤ 57 then some (c.toNat + 4)
  else if c = '+' then some 62
  else if c = '/' then some 63
  else none

/-- Values of a list of base64 characters; fails on the first invalid one. -/
def b64Vals : List Char → Option (List Nat)
  | [] => some []
  | c :: cs =>
      match b64Val c, b64Vals cs with
      | some v, some vs => some (v :: vs)
      | _, _ => none

/-- Bytes of a list of 6-bit base64 values: full groups of four values give
three bytes, a trailing group of two or three gives one or two bytes with the
leftover bits discarded, and a trailing single value is invalid. -/
def b64Bytes : List Nat → Option (List Nat)
  | [] => some []
  | [_] => none
  | [a, b] => some [(a * 4 + b / 16) % 256]
  | [a, b, c] => some [(a * 4 + b / 16) % 256, (b % 16 * 16 + c / 4) % 256]
  | a :: b :: c :: d :: rest =>
      (b64Bytes rest).map fun tail =>
        (a * 4 + b / 16) % 256 :: (b % 16 * 16 + c / 4) % 256 :: (c % 4 * 64 + d) % 256 :: tail

/-- Strip the padding a base64 payload may end with: up to two trailing `=`
characters, considered only when the length is a multiple of four. -/
def b64StripPad (cs : List Char) : List Char :=
  if cs.length % 4 = 0 then
    match cs.reverse with
    | '=' :: '=' :: rest => rest.reverse
    | '=' :: rest => rest.reverse
    | _ => cs
  else cs

/-- Model of the platform `atob`: base64-decode a string to the list of
UTF-16 code units of the resulting binary string (`none` on invalid input,
where the platform throws `InvalidCharacterError`). -/
def atob (s : String) : Option (List Nat) :=
  match b64Vals (b64StripPad s.data) with
  | none => none
  | some vs => b64Bytes vs

/-- Function `generateNarration` of `src/services/geminiService.ts` as a
function of the inline audio data extracted from the backend response
(`response.candidates?.[0]?.content?.parts?.[0]?.inlineData?.data`), giving
the returned buffer as its byte list. -/
def generateNarration (base64Audio : Option String) : Except String (List Nat) :=
  match base64Audio with
  | none => Except.error "No audio generated"
  | some s =>
      if s = "" then Except.error "No audio generated"
      else
        match atob s with
        | none => Except.error "InvalidCharacterError"
        | some binaryString => Except.ok (binaryString.map (fun c => c % 256))

/-!
## Client-side PCM decoding

Handler `handleNarration` of `src/App.tsx` lines 216-222 (the same loop is at
`src/unnamed/part_002` lines 87-92):

```ts
const data = new Uint8Array(audioData);
const dataInt16 = new Int16Array(data.buffer);
const buffer = ctx.createBuffer(1, dataInt16.length, 24000);
const channelData = buffer.getChannelData(0);
for (let i = 0; i < dataInt16.length; i++) {
  channelData[i] = dataInt16[i] / 32768.0;
}
```

`Int16Array` reinterprets the buffer two bytes at a time, little-endian on
the platforms the app runs on.  Each sample `dataInt16[i] / 32768.0` is a
16-bit integer divided by `2^15`, which floating point represents exactly, so
samples are modelled as rationals.
-/

/-- Signed 16-bit integer with little-endian bytes `lo`, `hi`. -/
def toInt16 (lo hi : Nat) : Int :=
  if lo % 256 + 256 * (hi % 256) < 32768 then ((lo % 256 + 256 * (hi % 256) : Nat) : Int)
  else ((lo % 256 + 256 * (hi % 256) : Nat) : Int) - 65536

/-- The channel data written by the decoding loop of `handleNarration`: one
sample per byte pair, each the signed 16-bit value divided by 32768. -/
def pcmSamples : List Nat → List ℚ
  | lo :: hi :: rest => ((toInt16 lo hi : ℚ) / 32768) :: pcmSamples rest
  | _ => []

/-- The `i`-th little-endian signed 16-bit integer of a byte buffer. -/
def int16LE (bytes : List Nat) (i : Nat) : Int :=
  toInt16 (bytes.getD (2 * i) 0) (bytes.getD (2 * i + 1) 0)

/-!
## UI handlers around service calls

Each handler of `src/App.tsx` is modelled as a function of the state it
starts from and of the outcome of the awaited service call (`Except`).  A
guarded handler absorbs a throwing call in its `catch`; the video-analysis
upload `onChange` of `src/App.tsx` lines 476-488 has no `try`/`catch`, so a
throwing `analyzeVideoContent` leaves its second `setState` unexecuted and
the rejection escapes — its model returns the reached state together with an
escape flag.
-/

/-- Model of the JavaScript builtin `String.prototype.trim`: remove leading
and trailing whitespace. -/
def jsTrim (s : String) : String :=
  ⟨((s.data.dropWhile Char.isWhitespace).reverse.dropWhile Char.isWhitespace).reverse⟩

/-- Handler `handleGenerate` of `src/App.tsx` lines 98-107. -/
def handleGenerate (topic : String) (prev : AppState)
    (result : Except String CourseContent) : AppState :=
  if jsTrim topic = "" then prev
  else
    let mid := { prev with isGenerating := true, error := none, course := none,
                           certifiedPathway := none, completedLessons := [] }
    match result with
    | .ok course => { mid with course := some course, isGenerating := false }
    | .error _ => { mid with isGenerating := false, error := some "Failed to generate course." }

/-- Handler `handleGenerateCertified` of `src/App.tsx` lines 155-167. -/
def handleGenerateCertified (topic : String) (prev : AppState)
    (result : Except String CertifiedPathway) : AppState :=
  if jsTrim topic = "" then prev
  else
    let mid := { prev with isGenerating := true, error := none, certifiedPathway := none }
    match result with
    | .ok pathway => { mid with certifiedPathway := some pathway, isGenerating := false }
    | .error _ => { mid with isGenerating := false, error := some "Failed to generate pathway." }

/-- Handler `handleChat` of `src/App.tsx` lines 185-196.  The failing branch
clears the loading flag and records no error message. -/
def handleChat (chatInput : String) (prev : AppState)
    (result : Except String String) : AppState :=
  if jsTrim chatInput = "" then prev
  else
    let mid := { prev with
      chatMessages := prev.chatMessages ++ [({ role := .user, text := chatInput } : ChatMessage)],
      isChatLoading := true }
    match result with
    | .ok response =>
        { mid with
          chatMessages := mid.chatMessages ++ [({ role := .model, text := response } : ChatMessage)],
          isChatLoading := false }
    | .error _ => { mid with isChatLoading := false }

/-- State part of handler `handleNarration` of `src/App.tsx` lines 198-237,
for a call that reaches the service (not the stop-playback early return): the
`catch` records an error, the `finally` clears the loading flag. -/
def handleNarrationState (prev : AppState) (result : Except String (List ℚ)) : AppState :=
  let mid := { prev with isAudioGenerating := true }
  match result with
  | .ok _ => { mid with isAudioGenerating := false }
  | .error _ =>
      { mid with error := some "Failed to generate narration.", isAudioGenerating := false }

/-- Handler `handleGenerateVideoClick` of `src/App.tsx` lines 239-248. -/
def handleGenerateVideoClick (prev : AppState)
    (result : Except String String) : AppState :=
  match prev.course with
  | none => prev
  | some _ =>
      let mid := { prev with isVideoGenerating := true, error := none }
      match result with
      | .ok url => { mid with videoUrl := some url, isVideoGenerating := false }
      | .error _ =>
          { mid with isVideoGenerating := false, error := some "Failed to generate video." }

/-- The video-analysis upload `onChange` of `src/App.tsx` lines 476-488, from
the point the file has been read: it sets `isAnalyzingVideo` and awaits
`analyzeVideoContent` with no `try`/`catch`.  The `Bool` component records
whether the exception escaped the handler. -/
def analyzeUploadChange (prev : AppState)
    (result : Except String String) : AppState × Bool :=
  let mid := { prev with isAnalyzingVideo := true }
  match result with
  | .ok analysis => ({ mid with videoAnalysis := some analysis, isAnalyzingVideo := false }, false)
  | .error _ => (mid, true)

/-!
## Course generation and its JSON payload

Function `generateCourse` of `src/services/geminiService.ts` lines 9-68 ends
with `return JSON.parse(response.text || '{}');`, an unvalidated cast to
`CourseContent`.  The response text is represented by the JSON value it
parses to (`JSON.parse` is the platform's); `'{}'` parses to the empty
object.  The declared `responseSchema` of the request requires `topic`,
`summary` and `lessons` (with each lesson requiring `title`, `content`,
`keyTakeaways`, `sources`) and mentions no `groundingSources` property.
-/

/-- JSON values. -/
inductive Json where
  | null : Json
  | bool : Bool → Json
  | num : ℚ → Json
  | str : String → Json
  | arr : List Json → Json
  | obj : List (String × Json) → Json

/-- Property access on a JSON value: the value of the first field with the
given name, when the value is an object carrying it. -/
def jget : Json → String → Option Json
  | .obj fields, k => (fields.find? (fun p => p.1 == k)).map (fun p => p.2)
  | _, _ => none

/-- Test for a JSON string. -/
def isJStr : Json → Bool
  | .str _ => true
  | _ => false

/-- Test that field `k` is present and a string. -/
def isStrField (j : Json) (k : String) : Bool :=
  match jget j k with
  | some (.str _) => true
  | _ => false

/-- Test that field `k` is present and an array of strings. -/
def isStrArrayField (j : Json) (k : String) : Bool :=
  match jget j k with
  | some (.arr xs) => xs.all isJStr
  | _ => false

/-- Conformance to the lesson source shape `{ title: string; url: string }`
of `src/types.ts`. -/
def isSourceJson (j : Json) : Bool :=
  isStrField j "title" && isStrField j "url"

/-- Conformance to the grounding source shape `{ title: string; uri: string }`
of `src/types.ts`. -/
def isGroundingSourceJson (j : Json) : Bool :=
  isStrField j "title" && isStrField j "uri"

/-- Conformance to interface `LessonPart` of `src/types.ts`: title, content,
a keyTakeaways string list that is not missing, and sources each carrying a
title and a url. -/
def isLessonPartJson (j : Json) : Bool :=
  isStrField j "title" && isStrField j "content" && isStrArrayField j "keyTakeaways" &&
  (match jget j "sources" with
   | some (.arr xs) => xs.all isSourceJson
   | _ => false)

/-- Conformance to interface `CourseContent` of `src/types.ts`: topic,
summary, lessons, and a groundingSources list. -/
def isCourseContentJson (j : Json) : Bool :=
  isStrField j "topic" && isStrField j "summary" &&
  (match jget j "lessons" with
   | some (.arr xs) => xs.all isLessonPartJson
   | _ => false) &&
  (match jget j "groundingSources" with
   | some (.arr xs) => xs.all isGroundingSourceJson
   | _ => false)

/-- Conformance to the `responseSchema` declared in the `generateCourse`
request: required `topic`, `summary`, `lessons`; each lesson requires
`title`, `content`, `keyTakeaways`, `sources`; no `groundingSources`
property is declared. -/
def matchesCourseResponseSchema (j : Json) : Bool :=
  isStrField j "topic" && isStrField j "summary" &&
  (match jget j "lessons" with
   | some (.arr xs) => xs.all isLessonPartJson
   | _ => false)

/-- The value `generateCourse` of `src/services/geminiService.ts` resolves
with: `JSON.parse(response.text || '{}')`, as a function of the parsed
response text (`none` when the response carries no text). -/
def generateCourse (responseText : Option Json) : Json :=
  responseText.getD (Json.obj [])

/-- A response payload that conforms to the declared `responseSchema`. -/
def goodCourseJson : Json :=
  .obj [("topic", .str "Agriculture"), ("summary", .str "An overview."),
        ("lessons", .arr [])]

/-!
## Concrete sample data

Small concrete values used to evaluate the embedded operations on specific
inputs.
-/

/-- A one-lesson sample course. -/
def demoCourse : CourseContent where
  topic := "Agriculture"
  summary := "An overview."
  lessons := [{ title := "Soil", content := "Soil basics.", keyTakeaways := ["k"],
                sources := [{ title := "FAO", url := "https://fao.org" }] }]
  groundingSources := []

/-- An application state holding `demoCourse`. -/
def demoState : AppState :=
  { initialState false with course := some demoCourse }

/-- A poll stream whose third operation (index 2) is the first done one. -/
def demoOps (n : Nat) : VideoOp :=
  if n = 2 then { done := true, generatedVideos := some [{ uri := some "https://v.example" }] }
  else { done := false, generatedVideos := none }

/-!
## Theorems
-/

/-- Membership after one toggle, without any distinctness assumption. -/
theorem toggle_mem_iff (l : List Nat) (idx j : Nat) :
    j ∈ toggleLessonCompletion l idx ↔ (if j = idx then idx ∉ l else j ∈ l) := by
  unfold toggleLessonCompletion
  simp only [List.contains, List.elem_eq_mem]
  by_cases hidx : idx ∈ l
  · simp only [hidx, decide_eq_true_eq, if_pos, List.mem_filter]
    by_cases hj : j = idx <;> simp [hj, hidx]
  · rw [if_neg (by simpa using hidx)]
    by_cases hj : j = idx <;> simp [hj, hidx, List.mem_append]

/-- C10: toggling lesson completion is an involution on membership: one
toggle makes `completedLessons` contain `idx` exactly when it did not before;
toggling twice restores the original membership; a list of distinct indices
stays distinct under any toggle. -/
theorem toggleLessonCompletion_involution (idx : Nat) (l : List Nat) :
    (idx ∈ toggleLessonCompletion l idx ↔ idx ∉ l) ∧
    (∀ j, j ∈ toggleLessonCompletion (toggleLessonCompletion l idx) idx ↔ j ∈ l) ∧
    (l.Nodup → (toggleLessonCompletion l idx).Nodup) := by
  refine ⟨?_, ?_, ?_⟩
  · simpa using toggle_mem_iff l idx idx
  · intro j
    by_cases hj : j = idx
    · subst hj
      rw [toggle_mem_iff, if_pos rfl]
      have h1 : j ∈ toggleLessonCompletion l j ↔ j ∉ l := by
        simpa using toggle_mem_iff l j j
      rw [h1]
      simp [not_not]
    · rw [toggle_mem_iff, if_neg hj, toggle_mem_iff, if_neg hj]
  · intro hnd
    unfold toggleLessonCompletion
    by_cases hidx : idx ∈ l
    · rw [if_pos (by simpa [List.contains, List.elem_eq_mem] using hidx)]
      exact hnd.filter _
    · rw [if_neg (by simpa [List.contains, List.elem_eq_mem] using hidx)]
      rw [List.nodup_append]
      exact ⟨hnd, List.nodup_singleton idx, by
        intro a ha hb
        simp only [List.mem_singleton] at hb
        subst hb
        exact hidx ha⟩

/-- Witness for `toggleLessonCompletion_involution` at `idx = 0`, `l = [1]`. -/
theorem toggleLessonCompletion_involution_witness :
    (0 ∈ toggleLessonCompletion [1] 0 ↔ 0 ∉ ([1] : List Nat)) ∧
    (∀ j, j ∈ toggleLessonCompletion (toggleLessonCompletion [1] 0) 0 ↔ j ∈ ([1] : List Nat)) ∧
    (toggleLessonCompletion [1] 0).Nodup := by
  have h := toggleLessonCompletion_involution 0 [1]
  exact ⟨h.1, h.2.1, h.2.2 (by decide)⟩

/-- C7 counterexample: sharing with an empty topic string does not round-trip
the depth.  `handleShare` happily writes `topic=` and `depth=deep` into the
URL, but the startup effect guards the whole restore block with a truthiness
test on the topic parameter, so the depth stays at its initial `express`. -/
theorem share_roundtrip_counterexample :
    sharedStartup (handleShareParams "" LearningDepth.deep) "" LearningDepth.express ≠
      ("", LearningDepth.deep) := by
  decide

/-- C7 (amended): for every non-empty topic string and every depth, parsing
the share URL written by `handleShare` with the shared-link startup effect
restores exactly the same topic and depth, whatever the initial component
states were. -/
theorem share_roundtrip (topic : String) (depth : LearningDepth) (h : topic ≠ "")
    (topic0 : String) (depth0 : LearningDepth) :
    sharedStartup (handleShareParams topic depth) topic0 depth0 = (topic, depth) := by
  have e1 : (("topic" : String) == "depth") = false := by decide
  cases depth <;>
    simp [sharedStartup, handleShareParams, lookupParam, List.find?,
      LearningDepth.toString, LearningDepth.ofString, h, e1]

/-- Witness for `share_roundtrip` at topic `"Law"`, depth `certified`. -/
theorem share_roundtrip_witness :
    sharedStartup (handleShareParams "Law" LearningDepth.certified) "" LearningDepth.express =
      ("Law", LearningDepth.certified) :=
  share_roundtrip "Law" LearningDepth.certified (by decide) "" LearningDepth.express

/-- Rounding a rational between 0 and 100 half-up stays between 0 and 100. -/
theorem jsRound_nonneg_le (q : ℚ) (h0 : 0 ≤ q) (h100 : q ≤ 100) :
    0 ≤ jsRound q ∧ jsRound q ≤ 100 := by
  unfold jsRound
  constructor
  · exact Int.le_floor.mpr (by push_cast; linarith)
  · have h2 : ⌊q + 1 / 2⌋ ≤ ⌊(201 / 2 : ℚ)⌋ := Int.floor_le_floor (by linarith)
    have h3 : ⌊(201 / 2 : ℚ)⌋ = (100 : ℤ) := by
      rw [Int.floor_eq_iff]
      norm_num
    omega

/-- C8: `progressPercentage` is total and division-safe: it returns 0 when
there is no course or the lesson list is empty, otherwise
`round(100 * completedLessons.length / lessons.length)`; when
`completedLessons` holds distinct in-bounds indices the result lies between
0 and 100. -/
theorem progressPercentage_total_bounded (course : Option CourseContent)
    (completed : List Nat) :
    (course = none → progressPercentage course completed = 0) ∧
    (∀ c, course = some c → c.lessons.length = 0 →
      progressPercentage course completed = 0) ∧
    (∀ c, course = some c → c.lessons.length ≠ 0 →
      progressPercentage course completed =
        jsRound (((completed.length : ℚ) / (c.lessons.length : ℚ)) * 100)) ∧
    (completed.Nodup →
      (∀ c, course = some c → ∀ i ∈ completed, i < c.lessons.length) →
      0 ≤ progressPercentage course completed ∧
        progressPercentage course completed ≤ 100) := by
  refine ⟨?_, ?_, ?_, ?_⟩
  · intro h; subst h; rfl
  · intro c hc hlen; subst hc; simp [progressPercentage, hlen]
  · intro c hc hlen; subst hc; simp [progressPercentage, hlen]
  · intro hnd hbound
    cases course with
    | none => simp [progressPercentage]
    | some c =>
        by_cases hlen : c.lessons.length = 0
        · simp [progressPercentage, hlen]
        · have hk : completed.length ≤ c.lessons.length := by
            have h1 : completed.toFinset.card = completed.length :=
              List.toFinset_card_of_nodup hnd
            have h2 : completed.toFinset ⊆ Finset.range c.lessons.length := by
              intro i hi
              rw [List.mem_toFinset] at hi
              exact Finset.mem_range.mpr (hbound c rfl i hi)
            calc completed.length = completed.toFinset.card := h1.symm
              _ ≤ (Finset.range c.lessons.length).card := Finset.card_le_card h2
              _ = c.lessons.length := Finset.card_range _
          have hn : (0 : ℚ) < (c.lessons.length : ℚ) := by
            exact_mod_cast Nat.pos_of_ne_zero hlen
          have hform : progressPercentage (some c) completed =
              jsRound (((completed.length : ℚ) / (c.lessons.length : ℚ)) * 100) := by
            simp [progressPercentage, hlen]
          rw [hform]
          apply jsRound_nonneg_le
          · positivity
          · have hr : (completed.length : ℚ) / (c.lessons.length : ℚ) ≤ 1 := by
              rw [div_le_one hn]
              exact_mod_cast hk
            have := mul_le_mul_of_nonneg_right hr (by norm_num : (0 : ℚ) ≤ 100)
            simpa using this

/-- Witness for `progressPercentage_total_bounded` on `demoCourse` with one
completed lesson. -/
theorem progressPercentage_witness :
    0 ≤ progressPercentage (some demoCourse) [0] ∧
    progressPercentage (some demoCourse) [0] ≤ 100 :=
  (progressPercentage_total_bounded (some demoCourse) [0]).2.2.2 (by simp)
    (by
      intro c hc i hi
      cases hc
      simp only [List.mem_singleton] at hi
      subst hi
      norm_num [demoCourse])

/-- C9: after `handleSaveForOffline` on a state holding a course, the new
entry is prepended, every previously saved course with the same topic is
removed, the other saved courses keep their previous order, the saved topic
occurs exactly once, and at-most-one-entry-per-topic is preserved. -/
theorem handleSaveForOffline_dedup (prev : AppState) (course : CourseContent)
    (newId : String) (now : Nat) (depth : LearningDepth)
    (hcourse : prev.course = some course) :
    (handleSaveForOffline prev newId now depth).savedCourses =
      ({ id := newId, content := course, savedAt := now, depth := depth } : SavedCourse) ::
        prev.savedCourses.filter (fun c => c.content.topic ≠ course.topic) ∧
    ((handleSaveForOffline prev newId now depth).savedCourses).tail.Sublist
      prev.savedCourses ∧
    topicCount (handleSaveForOffline prev newId now depth).savedCourses course.topic = 1 ∧
    (∀ t, topicCount prev.savedCourses t ≤ 1 →
      topicCount (handleSaveForOffline prev newId now depth).savedCourses t ≤ 1) := by
  have hupd : (handleSaveForOffline prev newId now depth).savedCourses =
      ({ id := newId, content := course, savedAt := now, depth := depth } : SavedCourse) ::
        prev.savedCourses.filter (fun c => c.content.topic ≠ course.topic) := by
    unfold handleSaveForOffline
    rw [hcourse]
  have hnone : (prev.savedCourses.filter (fun c => c.content.topic ≠ course.topic)).filter
      (fun c => c.content.topic = course.topic) = [] := by
    rw [List.filter_eq_nil_iff]
    intro a ha
    rw [List.mem_filter] at ha
    simpa using ha.2
  have hone : topicCount (handleSaveForOffline prev newId now depth).savedCourses
      course.topic = 1 := by
    rw [hupd]
    unfold topicCount
    rw [List.filter_cons_of_pos (by simp), hnone]
    rfl
  refine ⟨hupd, ?_, hone, ?_⟩
  · rw [hupd]
    exact List.filter_sublist _
  · intro t ht
    by_cases htop : t = course.topic
    · subst htop
      omega
    · rw [hupd]
      unfold topicCount at ht ⊢
      rw [List.filter_cons_of_neg
        (by simp only [decide_eq_true_eq]; exact fun e => htop e.symm)]
      have hsub : List.Sublist
          ((prev.savedCourses.filter
            (fun c => c.content.topic ≠ course.topic)).filter
            (fun c => c.content.topic = t))
          (prev.savedCourses.filter (fun c => c.content.topic = t)) :=
        (List.filter_sublist _).filter _
      exact le_trans hsub.length_le ht

/-- Witness for `handleSaveForOffline_dedup` on `demoState`. -/
theorem handleSaveForOffline_witness :
    topicCount (handleSaveForOffline demoState "id1" 0 LearningDepth.express).savedCourses
      demoCourse.topic = 1 :=
  (handleSaveForOffline_dedup demoState demoCourse "id1" 0 LearningDepth.express rfl).2.2.1

/-- The long-poll loop started at index `i` with enough fuel stops at the
first done operation at or after `i`. -/
theorem pollLoop_reaches (getOp : Nat → VideoOp) (N : Nat)
    (hN : (getOp N).done = true) (hbefore : ∀ j, j < N → (getOp j).done = false) :
    ∀ fuel i, i ≤ N → N < i + fuel → pollLoop getOp fuel i = some (getOp N) := by
  intro fuel
  induction fuel with
  | zero => intro i hi hlt; omega
  | succ fuel ih =>
      intro i hi hlt
      unfold pollLoop
      by_cases hdone : (getOp i).done = true
      · have heq : i = N := by
          by_contra hne
          rw [hbefore i (lt_of_le_of_ne hi hne)] at hdone
          exact Bool.false_ne_true hdone
        subst heq
        simp [hdone]
      · have hne : i ≠ N := fun e => hdone (e ▸ hN)
        have hfalse : (getOp i).done = false := by
          cases hb : (getOp i).done
          · rfl
          · exact absurd hb hdone
        rw [hfalse]
        simp only [Bool.false_eq_true, if_false]
        exact ih (i + 1) (by omega) (by omega)

/-- C4: `generateCourseVideo` long-polls the video job: if some poll reports
`done`, the loop exits exactly at the first such operation (every earlier
poll reported not done), and the function then takes the first generated
video's download URI from it. -/
theorem generateCourseVideo_long_poll (getOp : Nat → VideoOp)
    (h : ∃ n, (getOp n).done = true) :
    ∃ N, (getOp N).done = true ∧ (∀ j, j < N → (getOp j).done = false) ∧
      ∀ fuel, N < fuel → pollLoop getOp fuel 0 = some (getOp N) ∧
        generateCourseVideo getOp fuel = some (downloadLink (getOp N)) := by
  refine ⟨Nat.find h, Nat.find_spec h, ?_, ?_⟩
  · intro j hj
    simpa using Nat.find_min h hj
  · intro fuel hfuel
    have hp := pollLoop_reaches getOp (Nat.find h) (Nat.find_spec h)
      (fun j hj => by simpa using Nat.find_min h hj) fuel 0 (Nat.zero_le _) (by omega)
    refine ⟨hp, ?_⟩
    unfold generateCourseVideo
    rw [hp]
    rfl

/-- Witness for `generateCourseVideo_long_poll` on the sample poll stream. -/
theorem generateCourseVideo_long_poll_witness :
    ∃ N, (demoOps N).done = true ∧ (∀ j, j < N → (demoOps j).done = false) ∧
      ∀ fuel, N < fuel → pollLoop demoOps fuel 0 = some (demoOps N) ∧
        generateCourseVideo demoOps fuel = some (downloadLink (demoOps N)) :=
  generateCourseVideo_long_poll demoOps ⟨2, rfl⟩

/-- A decoded 16-bit sample value lies in `[-32768, 32767]`. -/
theorem toInt16_bounds (lo hi : Nat) : -32768 ≤ toInt16 lo hi ∧ toInt16 lo hi ≤ 32767 := by
  unfold toInt16
  have h1 : lo % 256 < 256 := Nat.mod_lt _ (by norm_num)
  have h2 : hi % 256 < 256 := Nat.mod_lt _ (by norm_num)
  split <;> omega

/-- The decoding loop produces one sample per byte pair. -/
theorem pcmSamples_length : ∀ bytes : List Nat,
    (pcmSamples bytes).length = bytes.length / 2
  | [] => rfl
  | [x] => by simp [show pcmSamples [x] = [] from rfl]
  | lo :: hi :: rest => by
      show ((toInt16 lo hi : ℚ) / 32768 :: pcmSamples rest).length =
        (rest.length + 1 + 1) / 2
      rw [List.length_cons, pcmSamples_length rest]
      omega

/-- Each produced sample is the corresponding little-endian signed 16-bit
integer divided by 32768. -/
theorem pcmSamples_getD : ∀ (bytes : List Nat) (i : Nat), i < bytes.length / 2 →
    (pcmSamples bytes).getD i 0 = (int16LE bytes i : ℚ) / 32768
  | [], i, h => by simp only [List.length_nil] at h; omega
  | [_], i, h => by simp only [List.length_singleton] at h; omega
  | lo :: hi :: rest, 0, _ => by
      show (toInt16 lo hi : ℚ) / 32768 = (int16LE (lo :: hi :: rest) 0 : ℚ) / 32768
      unfold int16LE
      norm_num
  | lo :: hi :: rest, i + 1, h => by
      have hh : i < rest.length / 2 := by
        simp only [List.length_cons] at h
        omega
      show (pcmSamples rest).getD i 0 = (int16LE (lo :: hi :: rest) (i + 1) : ℚ) / 32768
      rw [pcmSamples_getD rest i hh]
      unfold int16LE
      rw [show 2 * (i + 1) = 2 * i + 1 + 1 by omega,
        show 2 * i + 1 + 1 + 1 = (2 * i + 1) + 1 + 1 by omega]
      rw [List.getD_cons_succ, List.getD_cons_succ, List.getD_cons_succ, List.getD_cons_succ]

/-- Every produced sample lies in `[-1, 32767/32768]`. -/
theorem pcmSamples_bounds : ∀ bytes : List Nat, ∀ q ∈ pcmSamples bytes,
    -1 ≤ q ∧ q ≤ 32767 / 32768
  | [], q, hq => by simp [pcmSamples] at hq
  | [x], q, hq => by simp [show pcmSamples [x] = [] from rfl] at hq
  | lo :: hi :: rest, q, hq => by
      rcases List.mem_cons.mp hq with h | h
      · subst h
        have hb := toInt16_bounds lo hi
        have hb1 : (-32768 : ℚ) ≤ (toInt16 lo hi : ℚ) := by exact_mod_cast hb.1
        have hb2 : (toInt16 lo hi : ℚ) ≤ 32767 := by exact_mod_cast hb.2
        constructor
        · linarith
        · linarith
      · exact pcmSamples_bounds rest q h

/-- C2: on an even-length raw PCM byte buffer, the client-side decoding in
`handleNarration` produces exactly `byteLength / 2` samples; the `i`-th
sample is the `i`-th little-endian signed 16-bit integer of the buffer
divided by 32768; every sample lies in `[-1, 32767/32768]`. -/
theorem handleNarration_pcm_decode (bytes : List Nat)
    (_heven : bytes.length % 2 = 0) :
    (pcmSamples bytes).length = bytes.length / 2 ∧
    (∀ i, i < bytes.length / 2 →
      (pcmSamples bytes).getD i 0 = (int16LE bytes i : ℚ) / 32768) ∧
    (∀ q ∈ pcmSamples bytes, -1 ≤ q ∧ q ≤ 32767 / 32768) :=
  ⟨pcmSamples_length bytes, fun i hi => pcmSamples_getD bytes i hi,
    fun q hq => pcmSamples_bounds bytes q hq⟩

/-- Witness for `handleNarration_pcm_decode` on the buffer `[0x00, 0x80]`
(the most negative sample). -/
theorem handleNarration_pcm_decode_witness :
    (pcmSamples [0, 128]).length = ([0, 128] : List Nat).length / 2 ∧
    (∀ i, i < ([0, 128] : List Nat).length / 2 →
      (pcmSamples [0, 128]).getD i 0 = (int16LE [0, 128] i : ℚ) / 32768) ∧
    (∀ q ∈ pcmSamples [0, 128], -1 ≤ q ∧ q ≤ 32767 / 32768) :=
  handleNarration_pcm_decode [0, 128] (by decide)

/-- Replacing the expanded content at one index keeps the list length. -/
theorem setExpandedAt_length : ∀ (ls : List LessonPart) (i : Nat) (e : String),
    (setExpandedAt ls i e).length = ls.length
  | [], _, _ => rfl
  | _ :: _, 0, _ => rfl
  | l :: ls, n + 1, e => by
      show (l :: setExpandedAt ls n e).length = (l :: ls).length
      rw [List.length_cons, List.length_cons, setExpandedAt_length ls n e]

/-- Replacing the expanded content at one index leaves the other positions
untouched. -/
theorem setExpandedAt_getElem_ne : ∀ (ls : List LessonPart) (i : Nat) (e : String)
    (j : Nat), j ≠ i → (setExpandedAt ls i e)[j]? = ls[j]?
  | [], _, _, _, _ => rfl
  | _ :: _, 0, _, 0, hj => absurd rfl hj
  | l :: ls, 0, e, j + 1, _ => by
      show ({ l with expandedContent := some e } :: ls)[j + 1]? = (l :: ls)[j + 1]?
      rw [List.getElem?_cons_succ, List.getElem?_cons_succ]
  | l :: ls, n + 1, e, 0, _ => by
      show (l :: setExpandedAt ls n e)[0]? = (l :: ls)[0]?
      rw [List.getElem?_cons_zero, List.getElem?_cons_zero]
  | l :: ls, n + 1, e, j + 1, hj => by
      show (l :: setExpandedAt ls n e)[j + 1]? = (l :: ls)[j + 1]?
      rw [List.getElem?_cons_succ, List.getElem?_cons_succ]
      exact setExpandedAt_getElem_ne ls n e j (fun h => hj (by omega))

/-- At the replaced position the lesson keeps all fields except
`expandedContent`. -/
theorem setExpandedAt_getElem_eq : ∀ (ls : List LessonPart) (i : Nat) (e : String),
    (setExpandedAt ls i e)[i]? =
      (ls[i]?).map (fun l => { l with expandedContent := some e })
  | [], _, _ => rfl
  | l :: ls, 0, e => by
      show ({ l with expandedContent := some e } :: ls)[0]? =
        ((l :: ls)[0]?).map (fun l => { l with expandedContent := some e })
      rw [List.getElem?_cons_zero, List.getElem?_cons_zero, Option.map_some']
  | l :: ls, n + 1, e => by
      show (l :: setExpandedAt ls n e)[n + 1]? = ((l :: ls)[n + 1]?).map _
      rw [List.getElem?_cons_succ, List.getElem?_cons_succ]
      exact setExpandedAt_getElem_eq ls n e

/-- C6: a successful `handleExpandLesson(idx)` on a state holding a course
with `idx` in bounds changes only the `expandedContent` of lesson `idx` (set
to the generated text) and resets `isExpandingLesson` to `null`; the other
fields of that lesson, every other lesson, the other course fields and every
other application-state field are unchanged. -/
theorem handleExpandLesson_frame (prev : AppState) (c : CourseContent) (idx : Nat)
    (expanded : String) (hc : prev.course = some c)
    (_hidx : idx < c.lessons.length) :
    ∃ c2, (handleExpandLesson prev idx (Except.ok expanded)).course = some c2 ∧
      c2.topic = c.topic ∧ c2.summary = c.summary ∧
      c2.groundingSources = c.groundingSources ∧
      c2.lessons.length = c.lessons.length ∧
      (∀ j, j ≠ idx → c2.lessons[j]? = c.lessons[j]?) ∧
      c2.lessons[idx]? =
        (c.lessons[idx]?).map (fun l => { l with expandedContent := some expanded }) ∧
      (∀ l l2, c.lessons[idx]? = some l → c2.lessons[idx]? = some l2 →
        l2.title = l.title ∧ l2.content = l.content ∧
        l2.keyTakeaways = l.keyTakeaways ∧ l2.sources = l.sources ∧
        l2.expandedContent = some expanded) ∧
      (handleExpandLesson prev idx (Except.ok expanded)).isExpandingLesson = none ∧
      (handleExpandLesson prev idx (Except.ok expanded)).isGenerating = prev.isGenerating ∧
      (handleExpandLesson prev idx (Except.ok expanded)).certifiedPathway = prev.certifiedPathway ∧
      (handleExpandLesson prev idx (Except.ok expanded)).completedLessons = prev.completedLessons ∧
      (handleExpandLesson prev idx (Except.ok expanded)).videoUrl = prev.videoUrl ∧
      (handleExpandLesson prev idx (Except.ok expanded)).isVideoGenerating = prev.isVideoGenerating ∧
      (handleExpandLesson prev idx (Except.ok expanded)).isAudioGenerating = prev.isAudioGenerating ∧
      (handleExpandLesson prev idx (Except.ok expanded)).isAnalyzingVideo = prev.isAnalyzingVideo ∧
      (handleExpandLesson prev idx (Except.ok expanded)).videoAnalysis = prev.videoAnalysis ∧
      (handleExpandLesson prev idx (Except.ok expanded)).error = prev.error ∧
      (handleExpandLesson prev idx (Except.ok expanded)).theme = prev.theme ∧
      (handleExpandLesson prev idx (Except.ok expanded)).isDarkMode = prev.isDarkMode ∧
      (handleExpandLesson prev idx (Except.ok expanded)).chatMessages = prev.chatMessages ∧
      (handleExpandLesson prev idx (Except.ok expanded)).isChatLoading = prev.isChatLoading ∧
      (handleExpandLesson prev idx (Except.ok expanded)).videoOrientation = prev.videoOrientation ∧
      (handleExpandLesson prev idx (Except.ok expanded)).videoResolution = prev.videoResolution ∧
      (handleExpandLesson prev idx (Except.ok expanded)).savedCourses = prev.savedCourses := by
  have hs : handleExpandLesson prev idx (Except.ok expanded) =
      { prev with
        course := some { c with lessons := setExpandedAt c.lessons idx expanded },
        isExpandingLesson := none } := by
    unfold handleExpandLesson
    rw [hc]
    rfl
  refine ⟨{ c with lessons := setExpandedAt c.lessons idx expanded },
    by rw [hs], rfl, rfl, rfl, setExpandedAt_length c.lessons idx expanded,
    fun j hj => setExpandedAt_getElem_ne c.lessons idx expanded j hj,
    setExpandedAt_getElem_eq c.lessons idx expanded, ?_,
    by rw [hs], by rw [hs], by rw [hs], by rw [hs], by rw [hs], by rw [hs],
    by rw [hs], by rw [hs], by rw [hs], by rw [hs], by rw [hs], by rw [hs],
    by rw [hs], by rw [hs], by rw [hs], by rw [hs], by rw [hs]⟩
  intro l l2 hl hl2
  have := setExpandedAt_getElem_eq c.lessons idx expanded
  rw [hl, Option.map_some'] at this
  rw [this] at hl2
  cases hl2
  exact ⟨rfl, rfl, rfl, rfl, rfl⟩

/-- Witness for `handleExpandLesson_frame` on `demoState` at lesson 0. -/
theorem handleExpandLesson_frame_witness :
    ∃ c2, (handleExpandLesson demoState 0 (Except.ok "More depth.")).course = some c2 ∧
      c2.topic = demoCourse.topic ∧ c2.summary = demoCourse.summary ∧
      c2.groundingSources = demoCourse.groundingSources ∧
      c2.lessons.length = demoCourse.lessons.length ∧
      (∀ j, j ≠ 0 → c2.lessons[j]? = demoCourse.lessons[j]?) ∧
      c2.lessons[0]? =
        (demoCourse.lessons[0]?).map
          (fun l => { l with expandedContent := some "More depth." }) ∧
      (∀ l l2, demoCourse.lessons[0]? = some l → c2.lessons[0]? = some l2 →
        l2.title = l.title ∧ l2.content = l.content ∧
        l2.keyTakeaways = l.keyTakeaways ∧ l2.sources = l.sources ∧
        l2.expandedContent = some "More depth.") ∧
      (handleExpandLesson demoState 0 (Except.ok "More depth.")).isExpandingLesson = none ∧
      (handleExpandLesson demoState 0 (Except.ok "More depth.")).isGenerating = demoState.isGenerating ∧
      (handleExpandLesson demoState 0 (Except.ok "More depth.")).certifiedPathway = demoState.certifiedPathway ∧
      (handleExpandLesson demoState 0 (Except.ok "More depth.")).completedLessons = demoState.completedLessons ∧
      (handleExpandLesson demoState 0 (Except.ok "More depth.")).videoUrl = demoState.videoUrl ∧
      (handleExpandLesson demoState 0 (Except.ok "More depth.")).isVideoGenerating = demoState.isVideoGenerating ∧
      (handleExpandLesson demoState 0 (Except.ok "More depth.")).isAudioGenerating = demoState.isAudioGenerating ∧
      (handleExpandLesson demoState 0 (Except.ok "More depth.")).isAnalyzingVideo = demoState.isAnalyzingVideo ∧
      (handleExpandLesson demoState 0 (Except.ok "More depth.")).videoAnalysis = demoState.videoAnalysis ∧
      (handleExpandLesson demoState 0 (Except.ok "More depth.")).error = demoState.error ∧
      (handleExpandLesson demoState 0 (Except.ok "More depth.")).theme = demoState.theme ∧
      (handleExpandLesson demoState 0 (Except.ok "More depth.")).isDarkMode = demoState.isDarkMode ∧
      (handleExpandLesson demoState 0 (Except.ok "More depth.")).chatMessages = demoState.chatMessages ∧
      (handleExpandLesson demoState 0 (Except.ok "More depth.")).isChatLoading = demoState.isChatLoading ∧
      (handleExpandLesson demoState 0 (Except.ok "More depth.")).videoOrientation = demoState.videoOrientation ∧
      (handleExpandLesson demoState 0 (Except.ok "More depth.")).videoResolution = demoState.videoResolution ∧
      (handleExpandLesson demoState 0 (Except.ok "More depth.")).savedCourses = demoState.savedCourses :=
  handleExpandLesson_frame demoState demoCourse 0 "More depth." rfl
    (by norm_num [demoCourse])

/-- C3 counterexample: the video-analysis upload `onChange` calls
`analyzeVideoContent` with no `try`/`catch`.  On a throwing call the
exception escapes the handler, `isAnalyzingVideo` is left set, and no error
message is recorded. -/
theorem analyzeUpload_unguarded :
    (analyzeUploadChange (initialState false) (Except.error "boom")).2 = true ∧
    (analyzeUploadChange (initialState false) (Except.error "boom")).1.isAnalyzingVideo = true ∧
    (analyzeUploadChange (initialState false) (Except.error "boom")).1.error = none :=
  ⟨rfl, rfl, rfl⟩

/-- C3 (amended): every UI call into a service function except the
video-analysis upload `onChange` is guarded by a single `try`/`catch`: on a
throwing call the exception is absorbed, the handler's loading flag is
cleared, and (where the handler records one) an error message is set. -/
theorem guarded_handlers_absorb_errors (prev : AppState) (c : CourseContent)
    (topic chatInput msg : String) (idx : Nat)
    (htopic : jsTrim topic ≠ "") (hchat : jsTrim chatInput ≠ "")
    (hcourse : prev.course = some c) :
    (handleGenerate topic prev (Except.error msg)).isGenerating = false ∧
    (handleGenerate topic prev (Except.error msg)).error =
      some "Failed to generate course." ∧
    (handleGenerateCertified topic prev (Except.error msg)).isGenerating = false ∧
    (handleGenerateCertified topic prev (Except.error msg)).error =
      some "Failed to generate pathway." ∧
    (handleChat chatInput prev (Except.error msg)).isChatLoading = false ∧
    (handleNarrationState prev (Except.error msg)).isAudioGenerating = false ∧
    (handleNarrationState prev (Except.error msg)).error =
      some "Failed to generate narration." ∧
    (handleGenerateVideoClick prev (Except.error msg)).isVideoGenerating = false ∧
    (handleGenerateVideoClick prev (Except.error msg)).error =
      some "Failed to generate video." ∧
    (handleExpandLesson prev idx (Except.error msg)).isExpandingLesson = none ∧
    (handleExpandLesson prev idx (Except.error msg)).error =
      some "Failed to expand content." := by
  refine ⟨?_, ?_, ?_, ?_, ?_, rfl, rfl, ?_, ?_, ?_, ?_⟩
  · simp [handleGenerate, htopic]
  · simp [handleGenerate, htopic]
  · simp [handleGenerateCertified, htopic]
  · simp [handleGenerateCertified, htopic]
  · simp [handleChat, hchat]
  · simp [handleGenerateVideoClick, hcourse]
  · simp [handleGenerateVideoClick, hcourse]
  · simp [handleExpandLesson, hcourse]
  · simp [handleExpandLesson, hcourse]

/-- Witness for `guarded_handlers_absorb_errors` on `demoState`. -/
theorem guarded_handlers_absorb_errors_witness :
    (handleGenerate "Law" demoState (Except.error "x")).isGenerating = false ∧
    (handleGenerate "Law" demoState (Except.error "x")).error =
      some "Failed to generate course." ∧
    (handleGenerateCertified "Law" demoState (Except.error "x")).isGenerating = false ∧
    (handleGenerateCertified "Law" demoState (Except.error "x")).error =
      some "Failed to generate pathway." ∧
    (handleChat "hi" demoState (Except.error "x")).isChatLoading = false ∧
    (handleNarrationState demoState (Except.error "x")).isAudioGenerating = false ∧
    (handleNarrationState demoState (Except.error "x")).error =
      some "Failed to generate narration." ∧
    (handleGenerateVideoClick demoState (Except.error "x")).isVideoGenerating = false ∧
    (handleGenerateVideoClick demoState (Except.error "x")).error =
      some "Failed to generate video." ∧
    (handleExpandLesson demoState 0 (Except.error "x")).isExpandingLesson = none ∧
    (handleExpandLesson demoState 0 (Except.error "x")).error =
      some "Failed to expand content." :=
  guarded_handlers_absorb_errors demoState demoCourse "Law" "hi" "x" 0
    (by decide) (by decide) rfl

/-- Every byte produced by the base64 bit regrouping is below 256. -/
theorem b64Bytes_lt : ∀ (vs bs : List Nat), b64Bytes vs = some bs → ∀ b ∈ bs, b < 256
  | [], bs, h => by
      rw [show b64Bytes [] = some [] from rfl] at h
      cases h
      intro b hb
      simp at hb
  | [a], bs, h => by
      exact Option.noConfusion h
  | [a, b], bs, h => by
      rw [show b64Bytes [a, b] = some [(a * 4 + b / 16) % 256] from rfl] at h
      cases h
      intro x hx
      simp only [List.mem_singleton] at hx
      subst hx
      exact Nat.mod_lt _ (by norm_num)
  | [a, b, c], bs, h => by
      rw [show b64Bytes [a, b, c] =
        some [(a * 4 + b / 16) % 256, (b % 16 * 16 + c / 4) % 256] from rfl] at h
      cases h
      intro x hx
      rcases List.mem_cons.mp hx with rfl | hx
      · exact Nat.mod_lt _ (by norm_num)
      · simp only [List.mem_singleton] at hx
        subst hx
        exact Nat.mod_lt _ (by norm_num)
  | a :: b :: c :: d :: rest, bs, h => by
      unfold b64Bytes at h
      cases hrest : b64Bytes rest with
      | none => rw [hrest] at h; exact Option.noConfusion h
      | some tail =>
          rw [hrest] at h
          simp only [Option.map_some'] at h
          cases h
          intro x hx
          rcases List.mem_cons.mp hx with rfl | hx
          · exact Nat.mod_lt _ (by norm_num)
          rcases List.mem_cons.mp hx with rfl | hx
          · exact Nat.mod_lt _ (by norm_num)
          rcases List.mem_cons.mp hx with rfl | hx
          · exact Nat.mod_lt _ (by norm_num)
          · exact b64Bytes_lt rest tail hrest x hx

/-- Every code unit of a decoded binary string is below 256. -/
theorem atob_lt (s : String) (bin : List Nat) (h : atob s = some bin) :
    ∀ b ∈ bin, b < 256 := by
  unfold atob at h
  cases hv : b64Vals (b64StripPad s.data) with
  | none => rw [hv] at h; exact Option.noConfusion h
  | some vs => rw [hv] at h; exact b64Bytes_lt vs bin h

/-- C5: `generateNarration` throws "No audio generated" exactly when the
backend response carries no inline audio data (the field is absent or the
empty string); otherwise, when the data decodes, it returns the buffer whose
bytes are precisely the code units of the base64-decoded binary string (in
particular of its length), the `Uint8Array` truncation being the identity on
them. -/
theorem generateNarration_spec (base64Audio : Option String) :
    (generateNarration base64Audio = Except.error "No audio generated" ↔
      base64Audio = none ∨ base64Audio = some "") ∧
    (∀ s bin, base64Audio = some s → s ≠ "" → atob s = some bin →
      generateNarration base64Audio = Except.ok bin) := by
  refine ⟨⟨?_, ?_⟩, ?_⟩
  · intro h
    cases base64Audio with
    | none => exact Or.inl rfl
    | some s =>
        by_cases hs : s = ""
        · exact Or.inr (by rw [hs])
        · exfalso
          unfold generateNarration at h
          dsimp only at h
          rw [if_neg hs] at h
          cases hd : atob s with
          | none =>
              rw [hd] at h
              injection h with h2
              exact absurd h2 (by decide)
          | some bin =>
              rw [hd] at h
              exact Except.noConfusion h
  · rintro (h | h) <;> subst h <;> rfl
  · intro s bin hs hne hdec
    subst hs
    unfold generateNarration
    dsimp only
    rw [if_neg hne, hdec]
    dsimp only
    have hid : bin.map (fun c => c % 256) = bin := by
      have hlt := atob_lt s bin hdec
      calc bin.map (fun c => c % 256)
          = bin.map id := List.map_congr_left (fun b hb => Nat.mod_eq_of_lt (hlt b hb))
        _ = bin := List.map_id bin
    rw [hid]

/-- Witness for `generateNarration_spec`: `"QUJD"` decodes to the bytes of
`"ABC"`. -/
theorem generateNarration_spec_witness :
    generateNarration (some "QUJD") = Except.ok [65, 66, 67] :=
  (generateNarration_spec (some "QUJD")).2 "QUJD" [65, 66, 67] rfl
    (by decide) (by decide)

/-- C1 (exhibit of the unvalidated parse): when the backend response carries
no text, `generateCourse` resolves with the empty object, which conforms to
nothing of `CourseContent`; and even a response conforming to the declared
`responseSchema` yields a value without `groundingSources`, still outside
`CourseContent`, since the code never attaches grounding sources. -/
theorem generateCourse_unvalidated_parse :
    generateCourse none = Json.obj [] ∧
    isCourseContentJson (generateCourse none) = false ∧
    matchesCourseResponseSchema goodCourseJson = true ∧
    isCourseContentJson (generateCourse (some goodCourseJson)) = false :=
  ⟨rfl, rfl, rfl, rfl⟩

end AfriCourse
